import Mathlib

/-!
Verification development for the lnbits-scrum-skill repository.

The repository is a JavaScript client (src/index.js and src/api.js) for the
LNbits Scrum extension.  The logic-bearing pieces are shallowly embedded here:

* a small model of the JavaScript values that flow through the aggregator
  (`JsVal`, truthiness, `parseInt`),
* the sprint-report aggregator `generateSprintReport` from index.js,
* the credential/parameter resolution from the `LnbitsScrumClient`
  constructor and `buildParams` in api.js,
* the `createTask` payload construction and the GitHub-issue import loop.

JavaScript `parseInt` is modelled for decimal inputs (optional leading
whitespace, optional sign, longest digit prefix, NaN represented as `none`);
numbers are modelled as integers, matching the integer satoshi amounts the
program handles.
-/

namespace LnbitsScrum

/-- A JavaScript value as it appears in a task record's `reward` field:
`undefined`, `null`, a number, or a string. -/
inductive JsVal where
  | undef
  | null
  | num (n : Int)
  | str (s : String)
  deriving DecidableEq, Repr

/-- JavaScript truthiness of a `JsVal`: `undefined` and `null` are falsy,
a number is truthy iff nonzero, a string is truthy iff non-empty. -/
def truthy : JsVal → Bool
  | .undef => false
  | .null => false
  | .num n => decide (n ≠ 0)
  | .str s => decide (s ≠ "")

/-- Characters skipped by `parseInt` before the number starts. -/
def isSpaceChar (c : Char) : Bool :=
  c == ' ' || c == '\t' || c == '\n' || c == '\r'

/-- Value of a list of decimal digit characters. -/
def digitsVal (cs : List Char) : Nat :=
  cs.foldl (fun acc c => 10 * acc + (c.toNat - 48)) 0

/-- JavaScript `parseInt` on a string, decimal only: skip leading whitespace,
read an optional sign, then the longest digit prefix; `none` models NaN. -/
def parseIntStr (s : String) : Option Int :=
  let cs := s.toList.dropWhile isSpaceChar
  match cs with
  | '-' :: rest =>
      let ds := rest.takeWhile Char.isDigit
      if ds.isEmpty then none else some (-(digitsVal ds : Int))
  | '+' :: rest =>
      let ds := rest.takeWhile Char.isDigit
      if ds.isEmpty then none else some ((digitsVal ds : Int))
  | _ =>
      let ds := cs.takeWhile Char.isDigit
      if ds.isEmpty then none else some ((digitsVal ds : Int))

/-- JavaScript `parseInt` on a `JsVal`; `none` models NaN
(`parseInt(undefined)` and `parseInt(null)` are NaN). -/
def parseIntJS : JsVal → Option Int
  | .num n => some n
  | .str s => parseIntStr s
  | .undef => none
  | .null => none

/-- The value the aggregator adds for a reward: `parseInt(x)` with absent or
non-numeric values contributing `0` (the `parseInt(task.reward) || 0`
expression in index.js, together with the `if (task.reward)` guard). -/
def rewardValue (r : JsVal) : Int := (parseIntJS r).getD 0

/-- Insertion into a JavaScript `Set`, modelled as an insertion-ordered list
without duplicates: adding an element already present is a no-op, otherwise
it is appended. -/
def setAdd {α : Type} [DecidableEq α] (s : List α) (a : α) : List α :=
  if a ∈ s then s else s ++ [a]

/-- A task record as consumed by the aggregator (index.js reads `assignee`,
`reward` and `stage`; the remaining fields ride along in the buckets). -/
structure Task where
  id : String := ""
  scrum_id : String := ""
  task : String := ""
  assignee : String := ""
  stage : String := ""
  reward : JsVal := JsVal.undef
  notes : String := ""
  deriving DecidableEq, Repr

/-- A scrum board record as returned by the remote service. -/
structure ScrumBoard where
  id : String := ""
  name : String := ""
  deriving DecidableEq, Repr

/-- The `rewards` record of a sprint report. -/
structure Rewards where
  total : Int
  completed : Int
  pending : Int
  deriving DecidableEq, Repr

/-- The report assembled by `generateSprintReport` in index.js. -/
structure SprintReport where
  scrumBoard : ScrumBoard
  totalTasks : Nat
  todo : List Task
  doing : List Task
  done : List Task
  assignees : List String
  totalReward : Int
  completedReward : Int
  rewards : Rewards
  deriving DecidableEq, Repr

/-- The mutable report state threaded through `processTask` in index.js. -/
structure ReportAcc where
  todo : List Task
  doing : List Task
  done : List Task
  assigneeSet : List String
  totalReward : Int
  completedReward : Int
  deriving DecidableEq, Repr

/-- `report.assignees.add(task.assignee)` in `processTask`. -/
def addAssignee (report : ReportAcc) (task : Task) : ReportAcc :=
  { report with assigneeSet := setAdd report.assigneeSet task.assignee }

/-- The reward-tracking block of `processTask`:
`if (task.reward) { totalReward += parseInt(task.reward) || 0; if (task.stage === 'done') completedReward += parseInt(task.reward) || 0; }`. -/
def trackRewards (report : ReportAcc) (task : Task) : ReportAcc :=
  if truthy task.reward then
    let report := { report with
      totalReward := report.totalReward + ((parseIntJS task.reward).getD 0) }
    if task.stage = "done" then
      { report with
        completedReward := report.completedReward + ((parseIntJS task.reward).getD 0) }
    else report
  else report

/-- The `switch (task.stage)` block of `processTask`: push the task into the
bucket matching its stage, or into none of them. -/
def routeStage (report : ReportAcc) (task : Task) : ReportAcc :=
  if task.stage = "todo" then { report with todo := report.todo ++ [task] }
  else if task.stage = "doing" then { report with doing := report.doing ++ [task] }
  else if task.stage = "done" then { report with done := report.done ++ [task] }
  else report

/-- `processTask` from `generateSprintReport` in index.js. -/
def processTask (report : ReportAcc) (task : Task) : ReportAcc :=
  routeStage (trackRewards (addAssignee report task) task) task

/-- Processing a list of tasks in input order. -/
def processList (acc : ReportAcc) (l : List Task) : ReportAcc :=
  l.foldl processTask acc

/-- The initial report state in `generateSprintReport`. -/
def initAcc : ReportAcc :=
  { todo := [], doing := [], done := [], assigneeSet := []
    totalReward := 0, completedReward := 0 }

/-- The two shapes `generateSprintReport` accepts for the tasks input: a
response envelope (possibly carrying a `total` count and an `items` array),
or a bare array of tasks. -/
inductive TasksInput where
  | envelope (total : Option Nat) (items : Option (List Task))
  | bare (tasks : List Task)
  deriving DecidableEq, Repr

/-- The initializer `tasks.total || tasks.items?.length || 0` for an
envelope: a zero or missing `total` falls through to the item count. -/
def envelopeCount (total : Option Nat) (items : Option (List Task)) : Nat :=
  match total with
  | some n => if n ≠ 0 then n else (items.map List.length).getD 0
  | none => (items.map List.length).getD 0

/-- The finalization of `generateSprintReport`: filter the assignee set to
truthy (non-empty) strings and attach the `rewards` record. -/
def finalizeReport (scrumBoard : ScrumBoard) (totalTasks : Nat)
    (acc : ReportAcc) : SprintReport :=
  { scrumBoard := scrumBoard
    totalTasks := totalTasks
    todo := acc.todo
    doing := acc.doing
    done := acc.done
    assignees := acc.assigneeSet.filter (fun a => a ≠ "")
    totalReward := acc.totalReward
    completedReward := acc.completedReward
    rewards := { total := acc.totalReward
                 completed := acc.completedReward
                 pending := acc.totalReward - acc.completedReward } }

/-- `generateSprintReport` from index.js, as a pure function of the board and
the (already fetched) tasks response.  An envelope with an `items` array
(even an empty one, which is truthy in JavaScript) is processed from that
array; an envelope without `items` processes nothing; a bare array is
processed directly and overwrites `totalTasks` with its length. -/
def generateSprintReport (scrumBoard : ScrumBoard) (tasks : TasksInput) :
    SprintReport :=
  match tasks with
  | .envelope total (some items) =>
      finalizeReport scrumBoard (envelopeCount total (some items))
        (processList initAcc items)
  | .envelope total none =>
      finalizeReport scrumBoard (envelopeCount total none) initAcc
  | .bare l =>
      finalizeReport scrumBoard l.length (processList initAcc l)

/-- The task sequence the aggregator actually iterates over. -/
def processedTasks : TasksInput → List Task
  | .envelope _ (some items) => items
  | .envelope _ none => []
  | .bare l => l

/-! ### Basic lemmas about the aggregator -/

theorem rewardValue_not_truthy (r : JsVal) (h : truthy r = false) :
    rewardValue r = 0 := by
  cases r with
  | undef => rfl
  | null => rfl
  | num n =>
      simp [truthy] at h
      simp [rewardValue, parseIntJS, h]
  | str s =>
      simp [truthy] at h
      subst h
      decide

theorem addAssignee_fields (acc : ReportAcc) (t : Task) :
    (addAssignee acc t).todo = acc.todo ∧
    (addAssignee acc t).doing = acc.doing ∧
    (addAssignee acc t).done = acc.done ∧
    (addAssignee acc t).assigneeSet = setAdd acc.assigneeSet t.assignee ∧
    (addAssignee acc t).totalReward = acc.totalReward ∧
    (addAssignee acc t).completedReward = acc.completedReward :=
  ⟨rfl, rfl, rfl, rfl, rfl, rfl⟩

theorem trackRewards_buckets (acc : ReportAcc) (t : Task) :
    (trackRewards acc t).todo = acc.todo ∧
    (trackRewards acc t).doing = acc.doing ∧
    (trackRewards acc t).done = acc.done ∧
    (trackRewards acc t).assigneeSet = acc.assigneeSet := by
  unfold trackRewards
  split
  · split
    · exact ⟨rfl, rfl, rfl, rfl⟩
    · exact ⟨rfl, rfl, rfl, rfl⟩
  · exact ⟨rfl, rfl, rfl, rfl⟩

theorem trackRewards_totalReward (acc : ReportAcc) (t : Task) :
    (trackRewards acc t).totalReward = acc.totalReward + rewardValue t.reward := by
  unfold trackRewards
  by_cases h : truthy t.reward = true
  · simp only [h, if_true]
    split <;> rfl
  · have h' : truthy t.reward = false := by
      revert h
      cases truthy t.reward <;> simp
    simp [h', rewardValue_not_truthy t.reward h']

theorem trackRewards_completedReward (acc : ReportAcc) (t : Task) :
    (trackRewards acc t).completedReward =
      acc.completedReward + (if t.stage = "done" then rewardValue t.reward else 0) := by
  unfold trackRewards
  by_cases h : truthy t.reward = true
  · simp only [h, if_true]
    by_cases hs : t.stage = "done"
    · simp [hs, rewardValue]
    · simp [hs]
  · have h' : truthy t.reward = false := by
      revert h
      cases truthy t.reward <;> simp
    simp [h', rewardValue_not_truthy t.reward h']

theorem routeStage_rewards (acc : ReportAcc) (t : Task) :
    (routeStage acc t).assigneeSet = acc.assigneeSet ∧
    (routeStage acc t).totalReward = acc.totalReward ∧
    (routeStage acc t).completedReward = acc.completedReward := by
  unfold routeStage
  split
  · exact ⟨rfl, rfl, rfl⟩
  · split
    · exact ⟨rfl, rfl, rfl⟩
    · split
      · exact ⟨rfl, rfl, rfl⟩
      · exact ⟨rfl, rfl, rfl⟩

theorem routeStage_todo (acc : ReportAcc) (t : Task) :
    (routeStage acc t).todo =
      acc.todo ++ (if t.stage = "todo" then [t] else []) := by
  unfold routeStage
  split
  · simp_all
  · split
    · simp_all
    · split
      · simp_all
      · simp_all

theorem routeStage_doing (acc : ReportAcc) (t : Task) :
    (routeStage acc t).doing =
      acc.doing ++ (if t.stage = "doing" then [t] else []) := by
  unfold routeStage
  split
  · simp_all
  · split
    · simp_all
    · split
      · simp_all
      · simp_all

theorem routeStage_done (acc : ReportAcc) (t : Task) :
    (routeStage acc t).done =
      acc.done ++ (if t.stage = "done" then [t] else []) := by
  unfold routeStage
  split
  · simp_all
  · split
    · simp_all
    · split
      · simp_all
      · simp_all

theorem processTask_todo (acc : ReportAcc) (t : Task) :
    (processTask acc t).todo =
      acc.todo ++ (if t.stage = "todo" then [t] else []) := by
  unfold processTask
  rw [routeStage_todo, (trackRewards_buckets _ _).1, (addAssignee_fields _ _).1]

theorem processTask_doing (acc : ReportAcc) (t : Task) :
    (processTask acc t).doing =
      acc.doing ++ (if t.stage = "doing" then [t] else []) := by
  unfold processTask
  rw [routeStage_doing, (trackRewards_buckets _ _).2.1,
    (addAssignee_fields _ _).2.1]

theorem processTask_done (acc : ReportAcc) (t : Task) :
    (processTask acc t).done =
      acc.done ++ (if t.stage = "done" then [t] else []) := by
  unfold processTask
  rw [routeStage_done, (trackRewards_buckets _ _).2.2.1,
    (addAssignee_fields _ _).2.2.1]

theorem processTask_assigneeSet (acc : ReportAcc) (t : Task) :
    (processTask acc t).assigneeSet = setAdd acc.assigneeSet t.assignee := by
  unfold processTask
  rw [(routeStage_rewards _ _).1, (trackRewards_buckets _ _).2.2.2,
    (addAssignee_fields _ _).2.2.2.1]

theorem processTask_totalReward (acc : ReportAcc) (t : Task) :
    (processTask acc t).totalReward = acc.totalReward + rewardValue t.reward := by
  unfold processTask
  rw [(routeStage_rewards _ _).2.1, trackRewards_totalReward,
    (addAssignee_fields _ _).2.2.2.2.1]

theorem processTask_completedReward (acc : ReportAcc) (t : Task) :
    (processTask acc t).completedReward =
      acc.completedReward + (if t.stage = "done" then rewardValue t.reward else 0) := by
  unfold processTask
  rw [(routeStage_rewards _ _).2.2, trackRewards_completedReward,
    (addAssignee_fields _ _).2.2.2.2.2]

theorem processList_cons (acc : ReportAcc) (t : Task) (l : List Task) :
    processList acc (t :: l) = processList (processTask acc t) l := rfl

theorem processList_todo (l : List Task) : ∀ acc : ReportAcc,
    (processList acc l).todo =
      acc.todo ++ l.filter (fun t => t.stage = "todo") := by
  induction l with
  | nil => intro acc; simp [processList]
  | cons t l ih =>
      intro acc
      rw [processList_cons, ih, processTask_todo, List.filter_cons]
      by_cases h : t.stage = "todo" <;> simp [h]

theorem processList_doing (l : List Task) : ∀ acc : ReportAcc,
    (processList acc l).doing =
      acc.doing ++ l.filter (fun t => t.stage = "doing") := by
  induction l with
  | nil => intro acc; simp [processList]
  | cons t l ih =>
      intro acc
      rw [processList_cons, ih, processTask_doing, List.filter_cons]
      by_cases h : t.stage = "doing" <;> simp [h]

theorem processList_done (l : List Task) : ∀ acc : ReportAcc,
    (processList acc l).done =
      acc.done ++ l.filter (fun t => t.stage = "done") := by
  induction l with
  | nil => intro acc; simp [processList]
  | cons t l ih =>
      intro acc
      rw [processList_cons, ih, processTask_done, List.filter_cons]
      by_cases h : t.stage = "done" <;> simp [h]

theorem processList_assigneeSet (l : List Task) : ∀ acc : ReportAcc,
    (processList acc l).assigneeSet =
      (l.map Task.assignee).foldl setAdd acc.assigneeSet := by
  induction l with
  | nil => intro acc; simp [processList]
  | cons t l ih =>
      intro acc
      rw [processList_cons, ih, processTask_assigneeSet]
      rfl

theorem processList_totalReward (l : List Task) : ∀ acc : ReportAcc,
    (processList acc l).totalReward =
      acc.totalReward + (l.map (fun t => rewardValue t.reward)).sum := by
  induction l with
  | nil => intro acc; simp [processList]
  | cons t l ih =>
      intro acc
      rw [processList_cons, ih, processTask_totalReward]
      simp [add_assoc]

theorem processList_completedReward (l : List Task) : ∀ acc : ReportAcc,
    (processList acc l).completedReward =
      acc.completedReward +
        ((l.filter (fun t => t.stage = "done")).map
          (fun t => rewardValue t.reward)).sum := by
  induction l with
  | nil => intro acc; simp [processList]
  | cons t l ih =>
      intro acc
      rw [processList_cons, ih, processTask_completedReward, List.filter_cons]
      by_cases h : t.stage = "done" <;> simp [h, add_assoc]

/-! ### Lemmas about `setAdd` (JavaScript `Set` insertion) -/

theorem mem_setAdd {α : Type} [DecidableEq α] (s : List α) (a b : α) :
    a ∈ setAdd s b ↔ a ∈ s ∨ a = b := by
  unfold setAdd
  by_cases h : b ∈ s
  · simp only [h, if_true]
    exact ⟨Or.inl, fun hab => hab.elim id (fun he => he ▸ h)⟩
  · simp [h, List.mem_append]

theorem setAdd_nodup {α : Type} [DecidableEq α] {s : List α} (a : α)
    (h : s.Nodup) : (setAdd s a).Nodup := by
  unfold setAdd
  by_cases hm : a ∈ s
  · simpa [hm]
  · simp [hm, List.nodup_append, h, List.disjoint_singleton]

theorem foldl_setAdd_nodup {α : Type} [DecidableEq α] (l : List α) :
    ∀ s : List α, s.Nodup → (l.foldl setAdd s).Nodup := by
  induction l with
  | nil => intro s h; simpa using h
  | cons a l ih =>
      intro s h
      rw [List.foldl_cons]
      exact ih _ (setAdd_nodup a h)

theorem filter_setAdd {α : Type} [DecidableEq α] (p : α → Bool) (s : List α)
    (a : α) :
    (setAdd s a).filter p =
      if p a then setAdd (s.filter p) a else s.filter p := by
  unfold setAdd
  by_cases h : a ∈ s
  · simp only [h, if_true]
    by_cases hp : p a
    · have hmf : a ∈ s.filter p := List.mem_filter.mpr ⟨h, hp⟩
      simp [hp, hmf]
    · simp [hp]
  · simp only [h, if_false, List.filter_append]
    by_cases hp : p a
    · have hmf : a ∉ s.filter p := fun hm => h (List.mem_filter.mp hm).1
      simp [hp, hmf, List.filter_cons]
    · simp [hp, List.filter_cons]

theorem filter_foldl_setAdd {α : Type} [DecidableEq α] (p : α → Bool)
    (l : List α) : ∀ s : List α,
    (l.foldl setAdd s).filter p = (l.filter p).foldl setAdd (s.filter p) := by
  induction l with
  | nil => intro s; rfl
  | cons a l ih =>
      intro s
      rw [List.foldl_cons, ih, filter_setAdd, List.filter_cons]
      by_cases hp : p a <;> simp [hp]

theorem mem_foldl_setAdd {α : Type} [DecidableEq α] (l : List α) :
    ∀ (s : List α) (a : α), a ∈ l.foldl setAdd s → a ∈ s ∨ a ∈ l := by
  induction l with
  | nil => intro s a h; exact Or.inl (by simpa using h)
  | cons b l ih =>
      intro s a h
      rw [List.foldl_cons] at h
      rcases ih _ a h with h1 | h1
      · rcases (mem_setAdd s a b).mp h1 with h2 | h2
        · exact Or.inl h2
        · exact Or.inr (by simp [h2])
      · exact Or.inr (List.mem_cons_of_mem _ h1)

/-! ### Sample data used by the witnesses -/

def board0 : ScrumBoard := { id := "b1", name := "Sprint 1" }

def taskTodo : Task :=
  { id := "t1", assignee := "alice", stage := "todo", reward := JsVal.undef }

def taskDone : Task :=
  { id := "t2", assignee := "bob", stage := "done", reward := JsVal.num 5000 }

def taskDoing : Task :=
  { id := "t3", assignee := "", stage := "doing", reward := JsVal.num 0 }

def taskReview : Task :=
  { id := "t4", assignee := "alice", stage := "review", reward := JsVal.str "abc" }

def sampleTasks : List Task := [taskTodo, taskDone, taskDoing, taskReview]

/-! ### Claims about the sprint-report aggregator -/

/-- C1: for every board and task list given to the sprint-report aggregator,
`rewards.total` is the sum of the reward values of all tasks and
`rewards.completed` the same sum restricted to tasks with stage `done`,
where an absent or non-numeric reward contributes exactly `0`. -/
theorem c1_reward_totals (b : ScrumBoard) (input : TasksInput) :
    (generateSprintReport b input).rewards.total =
      ((processedTasks input).map (fun t => rewardValue t.reward)).sum ∧
    (generateSprintReport b input).rewards.completed =
      (((processedTasks input).filter (fun t => t.stage = "done")).map
        (fun t => rewardValue t.reward)).sum ∧
    (∀ r : JsVal, parseIntJS r = none → rewardValue r = 0) ∧
    rewardValue JsVal.undef = 0 ∧ rewardValue JsVal.null = 0 := by
  refine ⟨?_, ?_, ?_, rfl, rfl⟩
  · cases input with
    | envelope total items =>
        cases items with
        | none => simp [generateSprintReport, finalizeReport, processedTasks, initAcc]
        | some items =>
            simp [generateSprintReport, finalizeReport, processedTasks,
              processList_totalReward, initAcc]
    | bare l =>
        simp [generateSprintReport, finalizeReport, processedTasks,
          processList_totalReward, initAcc]
  · cases input with
    | envelope total items =>
        cases items with
        | none => simp [generateSprintReport, finalizeReport, processedTasks, initAcc]
        | some items =>
            simp [generateSprintReport, finalizeReport, processedTasks,
              processList_completedReward, initAcc]
    | bare l =>
        simp [generateSprintReport, finalizeReport, processedTasks,
          processList_completedReward, initAcc]
  · intro r h
    simp [rewardValue, h]

theorem c1_reward_totals_witness :
    rewardValue (JsVal.str "abc") = 0 ∧
    (generateSprintReport board0 (TasksInput.bare sampleTasks)).rewards.total = 5000 :=
  ⟨(c1_reward_totals board0 (TasksInput.bare sampleTasks)).2.2.1
      (JsVal.str "abc") (by decide),
   ((c1_reward_totals board0 (TasksInput.bare sampleTasks)).1).trans (by decide)⟩

/-- C2: for every board and task list, the report satisfies
`rewards.pending = rewards.total - rewards.completed` exactly. -/
theorem c2_pending_invariant (b : ScrumBoard) (input : TasksInput) :
    (generateSprintReport b input).rewards.pending =
      (generateSprintReport b input).rewards.total -
        (generateSprintReport b input).rewards.completed := by
  cases input with
  | envelope total items =>
      cases items <;> simp [generateSprintReport, finalizeReport]
  | bare l => simp [generateSprintReport, finalizeReport]

/-- C3: every task with stage `todo`, `doing` or `done` lands in exactly the
bucket matching its stage, buckets keep input order, a task with any other
stage lands in none of the three buckets, and (for a bare array input) it is
still counted in `totalTasks`. -/
theorem c3_stage_buckets (b : ScrumBoard) (input : TasksInput) (l : List Task) :
    (generateSprintReport b input).todo =
      (processedTasks input).filter (fun t => t.stage = "todo") ∧
    (generateSprintReport b input).doing =
      (processedTasks input).filter (fun t => t.stage = "doing") ∧
    (generateSprintReport b input).done =
      (processedTasks input).filter (fun t => t.stage = "done") ∧
    (∀ t : Task, t.stage ≠ "todo" → t.stage ≠ "doing" → t.stage ≠ "done" →
      t ∉ (generateSprintReport b input).todo ∧
      t ∉ (generateSprintReport b input).doing ∧
      t ∉ (generateSprintReport b input).done) ∧
    (generateSprintReport b (TasksInput.bare l)).totalTasks = l.length := by
  have htodo : (generateSprintReport b input).todo =
      (processedTasks input).filter (fun t => t.stage = "todo") := by
    cases input with
    | envelope total items =>
        cases items with
        | none => simp [generateSprintReport, finalizeReport, processedTasks, initAcc]
        | some items =>
            simp [generateSprintReport, finalizeReport, processedTasks,
              processList_todo, initAcc]
    | bare l' =>
        simp [generateSprintReport, finalizeReport, processedTasks,
          processList_todo, initAcc]
  have hdoing : (generateSprintReport b input).doing =
      (processedTasks input).filter (fun t => t.stage = "doing") := by
    cases input with
    | envelope total items =>
        cases items with
        | none => simp [generateSprintReport, finalizeReport, processedTasks, initAcc]
        | some items =>
            simp [generateSprintReport, finalizeReport, processedTasks,
              processList_doing, initAcc]
    | bare l' =>
        simp [generateSprintReport, finalizeReport, processedTasks,
          processList_doing, initAcc]
  have hdone : (generateSprintReport b input).done =
      (processedTasks input).filter (fun t => t.stage = "done") := by
    cases input with
    | envelope total items =>
        cases items with
        | none => simp [generateSprintReport, finalizeReport, processedTasks, initAcc]
        | some items =>
            simp [generateSprintReport, finalizeReport, processedTasks,
              processList_done, initAcc]
    | bare l' =>
        simp [generateSprintReport, finalizeReport, processedTasks,
          processList_done, initAcc]
  refine ⟨htodo, hdoing, hdone, ?_, ?_⟩
  · intro t h1 h2 h3
    refine ⟨?_, ?_, ?_⟩
    · rw [htodo]; simp [List.mem_filter, h1]
    · rw [hdoing]; simp [List.mem_filter, h2]
    · rw [hdone]; simp [List.mem_filter, h3]
  · simp [generateSprintReport, finalizeReport]

theorem c3_stage_buckets_witness :
    taskReview ∉ (generateSprintReport board0 (TasksInput.bare sampleTasks)).todo ∧
    taskReview ∉ (generateSprintReport board0 (TasksInput.bare sampleTasks)).doing ∧
    taskReview ∉ (generateSprintReport board0 (TasksInput.bare sampleTasks)).done ∧
    (generateSprintReport board0 (TasksInput.bare sampleTasks)).totalTasks = 4 :=
  have h := c3_stage_buckets board0 (TasksInput.bare sampleTasks) sampleTasks
  have hmem := h.2.2.2.1 taskReview (by decide) (by decide) (by decide)
  ⟨hmem.1, hmem.2.1, hmem.2.2, h.2.2.2.2⟩

/-- C4: the aggregator accepts both input shapes: an envelope is processed
from its item list with `totalTasks` taken from the envelope count, and a
bare array is processed directly with `totalTasks` set to its length. -/
theorem c4_input_shapes (b : ScrumBoard) (l : List Task) (n : Nat)
    (items : List Task) (h : n ≠ 0) :
    (generateSprintReport b (TasksInput.bare l)).totalTasks = l.length ∧
    generateSprintReport b (TasksInput.envelope (some n) (some items)) =
      { generateSprintReport b (TasksInput.bare items) with totalTasks := n } := by
  constructor
  · simp [generateSprintReport, finalizeReport]
  · have hc : envelopeCount (some n) (some items) = n := by
      simp [envelopeCount, h]
    simp [generateSprintReport, hc, finalizeReport]

theorem c4_input_shapes_witness :
    (generateSprintReport board0 (TasksInput.bare sampleTasks)).totalTasks = 4 ∧
    generateSprintReport board0 (TasksInput.envelope (some 2) (some sampleTasks)) =
      { generateSprintReport board0 (TasksInput.bare sampleTasks) with
          totalTasks := 2 } :=
  c4_input_shapes board0 sampleTasks 2 sampleTasks (by decide)

/-- C10: an envelope whose `total` is `0` or missing but whose item list is
present takes `totalTasks` from the item list length, so a non-empty item
list yields a nonzero `totalTasks`. -/
theorem c10_falsy_total (b : ScrumBoard) (items : List Task) :
    (generateSprintReport b
        (TasksInput.envelope (some 0) (some items))).totalTasks = items.length ∧
    (generateSprintReport b
        (TasksInput.envelope none (some items))).totalTasks = items.length ∧
    (items ≠ [] →
      (generateSprintReport b
          (TasksInput.envelope (some 0) (some items))).totalTasks ≠ 0) := by
  refine ⟨?_, ?_, ?_⟩
  · simp [generateSprintReport, finalizeReport, envelopeCount]
  · simp [generateSprintReport, finalizeReport, envelopeCount]
  · intro h
    simpa [generateSprintReport, finalizeReport, envelopeCount,
      List.length_eq_zero] using h

theorem c10_falsy_total_witness :
    (generateSprintReport board0
        (TasksInput.envelope (some 0) (some sampleTasks))).totalTasks ≠ 0 :=
  (c10_falsy_total board0 sampleTasks).2.2 (by decide)

/-- The assignee sequence described by the specification: the distinct
non-empty assignee strings in order of first occurrence. -/
def assigneesSpec (names : List String) : List String :=
  (names.filter (fun a => a ≠ "")).foldl setAdd []

theorem report_assignees_eq (b : ScrumBoard) (input : TasksInput) :
    (generateSprintReport b input).assignees =
      assigneesSpec ((processedTasks input).map Task.assignee) := by
  have key : ∀ items : List Task,
      ((processList initAcc items).assigneeSet).filter (fun a => a ≠ "") =
        assigneesSpec (items.map Task.assignee) := by
    intro items
    rw [processList_assigneeSet, filter_foldl_setAdd]
    rfl
  cases input with
  | envelope total items =>
      cases items with
      | none =>
          simp [generateSprintReport, finalizeReport, processedTasks,
            assigneesSpec, initAcc]
      | some items =>
          simpa [generateSprintReport, finalizeReport, processedTasks]
            using key items
  | bare l =>
      simpa [generateSprintReport, finalizeReport, processedTasks] using key l

/-- C9: the `assignees` field is the sequence of distinct non-empty assignee
strings in order of first occurrence in the input, and the empty string
never appears in it. -/
theorem c9_assignees (b : ScrumBoard) (input : TasksInput) :
    (generateSprintReport b input).assignees =
      assigneesSpec ((processedTasks input).map Task.assignee) ∧
    "" ∉ (generateSprintReport b input).assignees ∧
    (generateSprintReport b input).assignees.Nodup := by
  refine ⟨report_assignees_eq b input, ?_, ?_⟩
  · rw [report_assignees_eq]
    unfold assigneesSpec
    intro hm
    rcases mem_foldl_setAdd _ _ _ hm with h | h
    · simp at h
    · have := (List.mem_filter.mp h).2
      simp at this
  · rw [report_assignees_eq]
    exact foldl_setAdd_nodup _ _ List.nodup_nil

/-! ### The client: configuration, credentials and request parameters -/

/-- JavaScript truthiness of an optional string field: present and
non-empty. -/
def jstruthy : Option String → Bool
  | some s => decide (s ≠ "")
  | none => false

/-- JavaScript `a || b` on optional string fields: the first operand when it
is truthy, otherwise the second operand verbatim. -/
def jsOr (a b : Option String) : Option String :=
  if jstruthy a then a else b

/-- The configuration record read from `lnbits-scrum-config.json`; every
field is optional. -/
structure Config where
  lnbits_url : Option String := none
  access_token : Option String := none
  admin_key : Option String := none
  user_id : Option String := none
  usr : Option String := none
  wallet_id : Option String := none
  deriving DecidableEq, Repr

/-- A query-parameter or header map, modelled as an ordered association
list. -/
def hasKey (ps : List (String × String)) (k : String) : Bool :=
  ps.any (fun p => p.1 = k)

def getKey (ps : List (String × String)) (k : String) : Option String :=
  (ps.find? (fun p => p.1 = k)).map Prod.snd

/-- JavaScript property assignment `obj[k] = v` on an association list:
overwrite in place when the key exists, otherwise append. -/
def setKey (ps : List (String × String)) (k v : String) :
    List (String × String) :=
  if ps.any (fun p => p.1 = k) then
    ps.map (fun p => if p.1 = k then (k, v) else p)
  else ps ++ [(k, v)]

/-- The state of a `LnbitsScrumClient` after its constructor (api.js):
credentials are selected and the default headers are built. -/
structure Client where
  baseURL : String
  accessToken : Option String
  userId : Option String
  walletId : Option String
  headers : List (String × String)
  deriving DecidableEq, Repr

/-- The `LnbitsScrumClient` constructor from api.js: store the access token,
resolve `user_id || usr`, and attach the bearer header when the access token
is truthy. -/
def mkClient (config : Config) : Client :=
  let baseURL := (jsOr config.lnbits_url (some "https://demo.lnbits.com")).getD ""
  let accessToken := config.access_token
  let userId := jsOr config.user_id config.usr
  let walletId := config.wallet_id
  let headers0 := [("Content-Type", "application/json")]
  let headers :=
    if jstruthy accessToken then
      headers0 ++ [("Authorization", "Bearer " ++ accessToken.getD "")]
    else headers0
  { baseURL := baseURL, accessToken := accessToken, userId := userId
    walletId := walletId, headers := headers }

/-- `buildParams` from api.js: copy the additional parameters and set the
`usr` parameter when a user identifier is in use. -/
def buildParams (c : Client) (additionalParams : List (String × String)) :
    List (String × String) :=
  let params := additionalParams
  if jstruthy c.userId then setKey params "usr" (c.userId.getD "") else params

/-- `initialize` from index.js: raise the configuration error when none of
`access_token`, `admin_key`, `user_id`, `usr` is truthy, otherwise construct
the client. -/
def initSkill (config : Config) : Except String Client :=
  if !jstruthy config.access_token && !jstruthy config.admin_key &&
      !jstruthy config.user_id && !jstruthy config.usr then
    Except.error
      ("LNbits Scrum skill requires authentication. " ++
       "Provide access_token (Bearer) OR admin_key (X-Api-Key) OR user_id/usr (query param). " ++
       "See README.md for configuration details.")
  else Except.ok (mkClient config)

/-! ### Task creation and the GitHub import loop -/

/-- The outgoing payload of `createTask` (api.js): `reward` and `notes` are
genuinely absent (`none`) when not included. -/
structure TaskPayload where
  task : String
  scrum_id : String
  assignee : String
  stage : String
  reward : Option JsVal
  notes : Option String
  deriving DecidableEq, Repr

/-- The payload construction in `createTask` (api.js): always send `task`,
`scrum_id`, `assignee` and `stage: 'todo'`; include `reward` exactly when it
is not `undefined` (so `null` and `0` are sent verbatim); include `notes`
only when truthy. -/
def createTaskPayload (scrumId taskDescription assignee : String)
    (reward : JsVal) (notes : String) : TaskPayload :=
  { task := taskDescription
    scrum_id := scrumId
    assignee := if assignee ≠ "" then assignee else ""
    stage := "todo"
    reward := if reward = JsVal.undef then none else some reward
    notes := if notes ≠ "" then some notes else none }

/-- Outcome of the remote `POST /tasks` call, supplied as an environment. -/
inductive CallResult where
  | ok (task : Task)
  | err (detail : String)
  deriving DecidableEq, Repr

/-- `createTask` from api.js: build the payload, issue the call, and wrap a
failure detail in the `Failed to create task:` message. -/
def createTaskCall (env : TaskPayload → CallResult)
    (scrumId taskDescription assignee : String) (reward : JsVal)
    (notes : String) : Except String Task :=
  match env (createTaskPayload scrumId taskDescription assignee reward notes) with
  | .ok t => Except.ok t
  | .err m => Except.error ("Failed to create task: " ++ m)

/-- A GitHub issue as consumed by `addGithubIssuesToSprint` (index.js). -/
structure Issue where
  title : String := ""
  repository : String := ""
  number : Nat := 0
  assignee : Option String := none
  url : String := ""
  deriving DecidableEq, Repr

/-- The task description built for an imported issue:
`title (repository/number)`. -/
def issueTaskDescription (issue : Issue) : String :=
  issue.title ++ " (" ++ issue.repository ++ "/" ++ toString issue.number ++ ")"

/-- The notes attached to an imported issue. -/
def issueNotes (issue : Issue) : String :=
  "Imported from GitHub: " ++ issue.url

/-- One entry of the result array of `addGithubIssuesToSprint`:
`{success: true, task, issue}` or `{success: false, error, issue}`. -/
inductive ImportResult where
  | ok (task : Task) (issue : Issue)
  | fail (error : String) (issue : Issue)
  deriving DecidableEq, Repr

/-- One iteration of the import loop: try `createTask` for the issue and
record the per-entry outcome. -/
def importStep (env : TaskPayload → CallResult) (scrumId : String)
    (defaultReward : JsVal) (issue : Issue) : ImportResult :=
  match createTaskCall env scrumId (issueTaskDescription issue)
      (issue.assignee.getD "") defaultReward (issueNotes issue) with
  | .ok task => .ok task issue
  | .error e => .fail e issue

/-- `addGithubIssuesToSprint` from index.js: loop over the issues in order,
pushing one result per issue; a failure is caught and recorded instead of
aborting the batch. -/
def addGithubIssuesToSprint (env : TaskPayload → CallResult)
    (githubIssues : List Issue) (scrumId : String) (defaultReward : JsVal) :
    List ImportResult :=
  githubIssues.foldl
    (fun results issue => results ++ [importStep env scrumId defaultReward issue])
    []

/-! ### Lemmas about the client and the import loop -/

theorem jstruthy_jsOr (a b : Option String) :
    jstruthy (jsOr a b) = (jstruthy a || jstruthy b) := by
  unfold jsOr
  by_cases h : jstruthy a = true
  · simp [h]
  · have h' : jstruthy a = false := by revert h; cases jstruthy a <;> simp
    simp [h']

theorem hasKey_setKey (ps : List (String × String)) (k v : String) :
    hasKey (setKey ps k v) k = true := by
  unfold hasKey setKey
  by_cases h : ps.any (fun p => p.1 = k) = true
  · simp only [h, if_true]
    rcases List.any_eq_true.mp h with ⟨p, hp, hpk⟩
    have hpk' : p.1 = k := of_decide_eq_true hpk
    exact List.any_eq_true.mpr
      ⟨(k, v), List.mem_map.mpr ⟨p, hp, by simp [hpk']⟩, by simp⟩
  · simp [h, List.any_append]

theorem headers_mkClient (config : Config) :
    (mkClient config).headers =
      if jstruthy config.access_token then
        [("Content-Type", "application/json"),
         ("Authorization", "Bearer " ++ config.access_token.getD "")]
      else [("Content-Type", "application/json")] := rfl

theorem userId_mkClient (config : Config) :
    (mkClient config).userId = jsOr config.user_id config.usr := rfl

theorem buildParams_mkClient (config : Config) (ps : List (String × String)) :
    buildParams (mkClient config) ps =
      if jstruthy (jsOr config.user_id config.usr) then
        setKey ps "usr" ((jsOr config.user_id config.usr).getD "")
      else ps := rfl

theorem foldl_push_eq_map {α β : Type} (f : α → β) (l : List α) :
    ∀ acc : List β, l.foldl (fun rs x => rs ++ [f x]) acc = acc ++ l.map f := by
  induction l with
  | nil => intro acc; simp
  | cons a l ih => intro acc; rw [List.foldl_cons, ih]; simp

theorem addGithub_eq_map (env : TaskPayload → CallResult)
    (scrumId : String) (defaultReward : JsVal) (issues : List Issue) :
    addGithubIssuesToSprint env issues scrumId defaultReward =
      issues.map (importStep env scrumId defaultReward) := by
  unfold addGithubIssuesToSprint
  rw [foldl_push_eq_map]
  simp

theorem getElem?_map_list {α β : Type} (f : α → β) (l : List α) :
    ∀ i : Nat, (l.map f)[i]? = (l[i]?).map f := by
  induction l with
  | nil => intro i; simp
  | cons a l ih => intro i; cases i <;> simp [ih]

/-! ### Claims about the client and the batch import -/

/-- C5: the calling context attaches the bearer header exactly when an
access token is configured (truthy), attaches the `usr` query parameter
exactly when a user identifier is configured (`user_id` checked before the
legacy `usr` alias), and the two are additive. -/
theorem c5_calling_context (config : Config) (ps : List (String × String)) :
    (hasKey (mkClient config).headers "Authorization" =
      jstruthy config.access_token) ∧
    (jstruthy config.access_token = true →
      getKey (mkClient config).headers "Authorization" =
        some ("Bearer " ++ config.access_token.getD "")) ∧
    (hasKey (buildParams (mkClient config) ps) "usr" =
      (jstruthy config.user_id || jstruthy config.usr || hasKey ps "usr")) ∧
    (jstruthy config.user_id = true →
      getKey (buildParams (mkClient config) []) "usr" =
        some (config.user_id.getD "")) ∧
    (jstruthy config.user_id = false → jstruthy config.usr = true →
      getKey (buildParams (mkClient config) []) "usr" =
        some (config.usr.getD "")) ∧
    (jstruthy config.user_id = false → jstruthy config.usr = false →
      getKey (buildParams (mkClient config) []) "usr" = none) := by
  refine ⟨?_, ?_, ?_, ?_, ?_, ?_⟩
  · rw [headers_mkClient]
    by_cases hA : jstruthy config.access_token = true
    · rw [if_pos hA, hA]; rfl
    · have hA' : jstruthy config.access_token = false := by
        revert hA; cases jstruthy config.access_token <;> simp
      rw [if_neg hA, hA']; rfl
  · intro hA
    rw [headers_mkClient, if_pos hA]
    rfl
  · rw [buildParams_mkClient, jstruthy_jsOr]
    cases hA : jstruthy config.user_id <;> cases hB : jstruthy config.usr <;>
      simp [hA, hB, hasKey_setKey]
  · intro hA
    have hj : jsOr config.user_id config.usr = config.user_id := by
      unfold jsOr; simp [hA]
    rw [buildParams_mkClient, hj, if_pos hA]
    rfl
  · intro hA hB
    have hj : jsOr config.user_id config.usr = config.usr := by
      unfold jsOr; simp [hA]
    rw [buildParams_mkClient, hj, if_pos hB]
    rfl
  · intro hA hB
    have hj : jstruthy (jsOr config.user_id config.usr) = false := by
      rw [jstruthy_jsOr, hA, hB]; rfl
    rw [buildParams_mkClient, if_neg (by simp [hj])]
    rfl

def bothConfig : Config := { access_token := some "tok123", user_id := some "uid1" }

def tokenOnlyConfig : Config := { access_token := some "tok123" }

def userOnlyConfig : Config := { user_id := some "uid1" }

theorem c5_calling_context_witness :
    getKey (mkClient bothConfig).headers "Authorization" =
      some ("Bearer " ++ bothConfig.access_token.getD "") ∧
    getKey (buildParams (mkClient bothConfig) []) "usr" =
      some (bothConfig.user_id.getD "") ∧
    hasKey (buildParams (mkClient tokenOnlyConfig) []) "usr" = false ∧
    hasKey (mkClient userOnlyConfig).headers "Authorization" = false :=
  ⟨(c5_calling_context bothConfig []).2.1 (by decide),
   (c5_calling_context bothConfig []).2.2.2.1 (by decide),
   ((c5_calling_context tokenOnlyConfig []).2.2.1).trans (by decide),
   ((c5_calling_context userOnlyConfig []).1).trans (by decide)⟩

/-- C6: the claim states a configuration error is raised exactly when
neither an access token nor a user identifier is present; the code,
contradicting its own documentation (api.js states that X-Api-Key is not
supported), also lets a configuration with only `admin_key` through without
raising, producing a client that attaches no credentials at all. -/
theorem c6_config_error_divergence :
    initSkill { admin_key := some "adminkey1" } =
      Except.ok (mkClient { admin_key := some "adminkey1" }) ∧
    jstruthy (Config.access_token { admin_key := some "adminkey1" }) = false ∧
    jstruthy (Config.user_id { admin_key := some "adminkey1" }) = false ∧
    jstruthy (Config.usr { admin_key := some "adminkey1" }) = false ∧
    hasKey (mkClient { admin_key := some "adminkey1" }).headers
      "Authorization" = false ∧
    hasKey (buildParams (mkClient { admin_key := some "adminkey1" }) [])
      "usr" = false :=
  ⟨rfl, rfl, rfl, rfl, rfl, rfl⟩

/-- C7: the outgoing `createTask` payload contains a `reward` field iff the
caller supplied a value other than `undefined`; `null` and `0` are included
verbatim, an omitted reward yields no `reward` field at all. -/
theorem c7_reward_payload (scrumId taskDescription assignee notes : String)
    (reward : JsVal) :
    (createTaskPayload scrumId taskDescription assignee JsVal.undef
      notes).reward = none ∧
    (reward ≠ JsVal.undef →
      (createTaskPayload scrumId taskDescription assignee reward
        notes).reward = some reward) := by
  constructor
  · rfl
  · intro h
    simp [createTaskPayload, h]

theorem c7_reward_payload_witness :
    (createTaskPayload "s1" "fix bug" "" JsVal.undef "").reward = none ∧
    (createTaskPayload "s1" "fix bug" "" (JsVal.num 0) "").reward =
      some (JsVal.num 0) ∧
    (createTaskPayload "s1" "fix bug" "" JsVal.null "").reward =
      some JsVal.null :=
  ⟨(c7_reward_payload "s1" "fix bug" "" "" JsVal.undef).1,
   (c7_reward_payload "s1" "fix bug" "" "" (JsVal.num 0)).2 (by decide),
   (c7_reward_payload "s1" "fix bug" "" "" JsVal.null).2 (by decide)⟩

/-- C8: the batch import returns exactly one entry per input issue in input
order, each entry recording success with the created task or failure with
the error message, determined solely by that issue's own call outcome. -/
theorem c8_batch_import (env : TaskPayload → CallResult) (scrumId : String)
    (defaultReward : JsVal) (issues : List Issue) :
    (addGithubIssuesToSprint env issues scrumId defaultReward).length =
      issues.length ∧
    ∀ (i : Nat) (issue : Issue), issues[i]? = some issue →
      (∀ t : Task, createTaskCall env scrumId (issueTaskDescription issue)
          (issue.assignee.getD "") defaultReward (issueNotes issue) =
            Except.ok t →
        (addGithubIssuesToSprint env issues scrumId defaultReward)[i]? =
          some (ImportResult.ok t issue)) ∧
      (∀ e : String, createTaskCall env scrumId (issueTaskDescription issue)
          (issue.assignee.getD "") defaultReward (issueNotes issue) =
            Except.error e →
        (addGithubIssuesToSprint env issues scrumId defaultReward)[i]? =
          some (ImportResult.fail e issue)) := by
  constructor
  · rw [addGithub_eq_map]
    simp
  · intro i issue hi
    have hmap : (addGithubIssuesToSprint env issues scrumId defaultReward)[i]? =
        some (importStep env scrumId defaultReward issue) := by
      rw [addGithub_eq_map, getElem?_map_list, hi]
      rfl
    constructor
    · intro t ht
      rw [hmap]
      simp [importStep, ht]
    · intro e he
      rw [hmap]
      simp [importStep, he]

def issue1 : Issue := { title := "A", repository := "r", number := 1, url := "u1" }

def issue2 : Issue := { title := "B", repository := "r", number := 2, url := "u2" }

def issue3 : Issue := { title := "C", repository := "r", number := 3, url := "u3" }

def sampleIssues : List Issue := [issue1, issue2, issue3]

def createdTask : Task := { id := "new", stage := "todo" }

def flakyEnv : TaskPayload → CallResult :=
  fun p => if p.task = "B (r/2)" then CallResult.err "boom"
           else CallResult.ok createdTask

theorem c8_batch_import_witness :
    (addGithubIssuesToSprint flakyEnv sampleIssues "s1" JsVal.undef).length = 3 ∧
    (addGithubIssuesToSprint flakyEnv sampleIssues "s1" JsVal.undef)[0]? =
      some (ImportResult.ok createdTask issue1) ∧
    (addGithubIssuesToSprint flakyEnv sampleIssues "s1" JsVal.undef)[1]? =
      some (ImportResult.fail "Failed to create task: boom" issue2) ∧
    (addGithubIssuesToSprint flakyEnv sampleIssues "s1" JsVal.undef)[2]? =
      some (ImportResult.ok createdTask issue3) :=
  have h := c8_batch_import flakyEnv "s1" JsVal.undef sampleIssues
  ⟨h.1, (h.2 0 issue1 rfl).1 createdTask rfl,
   (h.2 1 issue2 rfl).2 "Failed to create task: boom" rfl,
   (h.2 2 issue3 rfl).1 createdTask rfl⟩

end LnbitsScrum
